import Mathlib

/-!
# Quant trading system: the front-end API client (`frontend/src/api.js`)

A shallow embedding of the request-building functions of `api.js`.  The axios
instance `api` is an external library; a call `api.get(url, config)` or
`api.post(url, data, config)` is embedded as the request description handed to
axios: HTTP method, URL relative to the base URL, request body and the
`params` member of the configuration object.

JavaScript values are embedded by `JsVal`.  A function argument that is
omitted at the call site is the value `undefined`, exactly as in JavaScript,
so every embedded function takes all its formal parameters.
-/

set_option autoImplicit false

namespace Quant

/-! ## JavaScript values -/

/-- JavaScript numbers.  `fin q` is the finite number `q` (`fin 0` is `+0`);
every double is one of these values. -/
inductive JsNum where
  | nan
  | posInf
  | negInf
  | negZero
  | fin (q : ℚ)

/-- JavaScript values.  `obj` is an ordinary object given by its own
enumerable properties in insertion order. -/
inductive JsVal where
  | undefined
  | null
  | bool (b : Bool)
  | num (n : JsNum)
  | str (s : String)
  | obj (fields : List (String × JsVal))

namespace JsNum

/-- Truthiness of a number (`ToBoolean`): `NaN`, `+0` and `-0` are falsy. -/
def truthy : JsNum → Bool
  | nan => false
  | posInf => true
  | negInf => true
  | negZero => false
  | fin q => decide (q ≠ 0)

/-- The number is an integer that is not below zero (`-0` compares equal to
zero). -/
def isNonNegInt : JsNum → Bool
  | nan => false
  | posInf => false
  | negInf => false
  | negZero => true
  | fin q => decide (q.den = 1) && decide (0 ≤ q)

end JsNum

namespace JsVal

/-- The number literal `n`. -/
def int (n : Int) : JsVal := num (JsNum.fin n)

/-- Truthiness (`ToBoolean`), the test of `c ? a : b` and of `a || b`. -/
def truthy : JsVal → Bool
  | undefined => false
  | null => false
  | bool b => b
  | num n => n.truthy
  | str s => decide (s ≠ "")
  | obj _ => true

/-- The test `v === undefined`. -/
def isUndefined : JsVal → Bool
  | undefined => true
  | _ => false

/-- The value is a JavaScript object. -/
def isObject : JsVal → Bool
  | obj _ => true
  | _ => false

/-- The value is a number that is a non-negative integer. -/
def isNonNegInt : JsVal → Bool
  | num n => n.isNonNegInt
  | _ => false

/-- A formal parameter with a default value, `(x = d) => ...`: the default is
taken exactly when the argument is `undefined`. -/
def orDefault (v d : JsVal) : JsVal :=
  if v.isUndefined then d else v

end JsVal

/-! ## Object literals -/

/-- Property list of an object. -/
abbrev Props := List (String × JsVal)

/-- Define or overwrite the property `k`, keeping the position of an existing
key (the effect of one member of an object literal). -/
def setProp : Props → String → JsVal → Props
  | [], k, v => [(k, v)]
  | (k', v') :: rest, k, v =>
    if k' = k then (k', v) :: rest else (k', v') :: setProp rest k v

/-- Spread `...src` inside an object literal: the properties of `src` are
copied in order onto the object built so far. -/
def spread (acc src : Props) : Props :=
  src.foldl (fun o kv => setProp o kv.1 kv.2) acc

/-- Property read `o.k`; `undefined` when `o` has no such property or is not
an object. -/
def getProp : JsVal → String → JsVal
  | JsVal.obj fields, k =>
    match fields.find? (fun kv => kv.1 = k) with
    | some kv => kv.2
    | none => JsVal.undefined
  | _, _ => JsVal.undefined

/-- The own property names of a value, in order (`Object.keys`); empty for a
value that is not an object. -/
def keys : JsVal → List String
  | JsVal.obj fields => fields.map Prod.fst
  | _ => []

/-! ## The axios instance -/

/-- HTTP method of a request. -/
inductive Method where
  | GET
  | POST
deriving DecidableEq

/-- What a call on the axios instance hands to the transport. -/
structure Request where
  method : Method
  url : String
  data : JsVal
  params : JsVal

/-- The value of `API_BASE_URL`: `import.meta.env.VITE_API_BASE_URL ||
'http://localhost:8000'`.  The environment entry is a string or absent. -/
def API_BASE_URL (env : Option String) : String :=
  match env with
  | some s => if (JsVal.str s).truthy then s else "http://localhost:8000"
  | none => "http://localhost:8000"

/-- The constant `API_VERSION`. -/
def API_VERSION : String := "v1"

/-- The `baseURL` of the axios instance, the template
`${API_BASE_URL}/api/${API_VERSION}`. -/
def baseURL (env : Option String) : String :=
  API_BASE_URL env ++ "/api/" ++ API_VERSION

/-- The call `api.get(url, config)`; `config` is `undefined` when the call
passes no second argument.  A GET request carries no body. -/
def api_get (url : String) (config : JsVal) : Request :=
  { method := Method.GET, url := url, data := JsVal.undefined,
    params := getProp config "params" }

/-- The call `api.post(url, data, config)`; `data` and `config` are
`undefined` when the call does not pass them. -/
def api_post (url : String) (data config : JsVal) : Request :=
  { method := Method.POST, url := url, data := data,
    params := getProp config "params" }

/-- The object literal `{ params: p }`. -/
def paramsConfig (p : JsVal) : JsVal :=
  JsVal.obj (setProp [] "params" p)

/-! ## The exported API objects

Path arguments (`id`, `market`, `currency`) are strings; interpolating a
string into a template literal inserts it unchanged. -/

namespace healthApi

def getHealth : Request := api_get "/health" JsVal.undefined

def getDetailedHealth : Request := api_get "/health/detailed" JsVal.undefined

def getMetrics : Request := api_get "/health/metrics" JsVal.undefined

end healthApi

namespace strategyApi

def getStrategies : Request := api_get "/strategies" JsVal.undefined

def getStrategy (id : String) : Request :=
  api_get ("/strategies/" ++ id) JsVal.undefined

def startStrategy (id : String) : Request :=
  api_post ("/strategies/" ++ id ++ "/start") JsVal.undefined JsVal.undefined

def stopStrategy (id : String) : Request :=
  api_post ("/strategies/" ++ id ++ "/stop") JsVal.undefined JsVal.undefined

end strategyApi

namespace positionApi

def getPositions : Request := api_get "/positions" JsVal.undefined

def getPosition (market : String) : Request :=
  api_get ("/positions/" ++ market) JsVal.undefined

end positionApi

namespace tradeApi

def getTrades (limit offset : JsVal) : Request :=
  let limit := limit.orDefault (JsVal.int 20)
  let offset := offset.orDefault (JsVal.int 0)
  api_get "/trades"
    (paramsConfig (JsVal.obj (setProp (setProp [] "limit" limit) "offset" offset)))

def getTrade (id : String) : Request :=
  api_get ("/trades/" ++ id) JsVal.undefined

end tradeApi

namespace logApi

def getLogs (params : JsVal) : Request :=
  let params := params.orDefault (JsVal.obj [])
  api_get "/logs" (paramsConfig params)

end logApi

namespace upbitApi

def getAccounts : Request := api_get "/upbit/accounts" JsVal.undefined

def getBalance (currency : String) : Request :=
  api_get ("/upbit/balance/" ++ currency) JsVal.undefined

def getTicker (markets : JsVal) : Request :=
  api_get "/upbit/ticker" (paramsConfig (JsVal.obj (setProp [] "markets" markets)))

def getOrders (params : JsVal) : Request :=
  let params := params.orDefault (JsVal.obj [])
  api_get "/upbit/orders" (paramsConfig params)

end upbitApi

/-- The expression `strategyId ? { strategy_id: strategyId } : {}`. -/
def strategyScope (strategyId : JsVal) : Props :=
  if strategyId.truthy then setProp [] "strategy_id" strategyId else []

namespace virtualAccountApi

def getBalance (strategyId : JsVal) : Request :=
  let strategyId := strategyId.orDefault JsVal.null
  api_get "/virtual-account/balance" (paramsConfig (JsVal.obj (strategyScope strategyId)))

def getSummary (strategyId : JsVal) : Request :=
  let strategyId := strategyId.orDefault JsVal.null
  api_get "/virtual-account/summary" (paramsConfig (JsVal.obj (strategyScope strategyId)))

def getTrades (limit strategyId : JsVal) : Request :=
  let limit := limit.orDefault (JsVal.int 50)
  let strategyId := strategyId.orDefault JsVal.null
  api_get "/virtual-account/trades"
    (paramsConfig (JsVal.obj (spread (setProp [] "limit" limit) (strategyScope strategyId))))

def getStrategies : Request := api_get "/virtual-account/strategies" JsVal.undefined

def resetAccount (strategyId : JsVal) : Request :=
  let strategyId := strategyId.orDefault JsVal.null
  api_post "/virtual-account/reset" JsVal.null
    (paramsConfig (JsVal.obj (strategyScope strategyId)))

end virtualAccountApi

/-! ## The call surface -/

/-- The operations exported by the module, one per member of the seven API
objects. -/
inductive Op where
  | health_getHealth
  | health_getDetailedHealth
  | health_getMetrics
  | strategy_getStrategies
  | strategy_getStrategy
  | strategy_startStrategy
  | strategy_stopStrategy
  | position_getPositions
  | position_getPosition
  | trade_getTrades
  | trade_getTrade
  | log_getLogs
  | upbit_getAccounts
  | upbit_getBalance
  | upbit_getTicker
  | upbit_getOrders
  | virtualAccount_getBalance
  | virtualAccount_getSummary
  | virtualAccount_getTrades
  | virtualAccount_getStrategies
  | virtualAccount_resetAccount
deriving DecidableEq

namespace Op

/-- Every operation of the module, in source order. -/
def all : List Op :=
  [health_getHealth, health_getDetailedHealth, health_getMetrics,
   strategy_getStrategies, strategy_getStrategy, strategy_startStrategy,
   strategy_stopStrategy, position_getPositions, position_getPosition,
   trade_getTrades, trade_getTrade, log_getLogs, upbit_getAccounts,
   upbit_getBalance, upbit_getTicker, upbit_getOrders,
   virtualAccount_getBalance, virtualAccount_getSummary,
   virtualAccount_getTrades, virtualAccount_getStrategies,
   virtualAccount_resetAccount]

/-- Call an operation: `s` is its path argument when it has one, `a` and `b`
are its first and second other arguments when it has them. -/
def call (o : Op) (s : String) (a b : JsVal) : Request :=
  match o with
  | health_getHealth => healthApi.getHealth
  | health_getDetailedHealth => healthApi.getDetailedHealth
  | health_getMetrics => healthApi.getMetrics
  | strategy_getStrategies => strategyApi.getStrategies
  | strategy_getStrategy => strategyApi.getStrategy s
  | strategy_startStrategy => strategyApi.startStrategy s
  | strategy_stopStrategy => strategyApi.stopStrategy s
  | position_getPositions => positionApi.getPositions
  | position_getPosition => positionApi.getPosition s
  | trade_getTrades => tradeApi.getTrades a b
  | trade_getTrade => tradeApi.getTrade s
  | log_getLogs => logApi.getLogs a
  | upbit_getAccounts => upbitApi.getAccounts
  | upbit_getBalance => upbitApi.getBalance s
  | upbit_getTicker => upbitApi.getTicker a
  | upbit_getOrders => upbitApi.getOrders a
  | virtualAccount_getBalance => virtualAccountApi.getBalance a
  | virtualAccount_getSummary => virtualAccountApi.getSummary a
  | virtualAccount_getTrades => virtualAccountApi.getTrades a b
  | virtualAccount_getStrategies => virtualAccountApi.getStrategies
  | virtualAccount_resetAccount => virtualAccountApi.resetAccount a

end Op

/-! ## The resource table of the interface description -/

/-- One segment of a resource pattern: a literal or a placeholder `{name}`. -/
inductive Seg where
  | lit (s : String)
  | var (name : String)
deriving DecidableEq

/-- A resource pattern, the list of its segments: `/strategies/{id}/start` is
`[lit "strategies", var "id", lit "start"]`. -/
abbrev Pattern := List Seg

/-- Modelled from the spec: the resource table of the external interfaces
section, which is not code of `api.js`.  One pattern per resource of the
table, in table order; the entries `/summary`, `/trades`, `/strategies` and
`/reset` of the last row stand under `/virtual-account`, and the query part
of `/upbit/ticker?markets=` is not part of the path. -/
def resourceTable : List Pattern :=
  [[Seg.lit "health"],
   [Seg.lit "health", Seg.lit "detailed"],
   [Seg.lit "health", Seg.lit "metrics"],
   [Seg.lit "strategies"],
   [Seg.lit "strategies", Seg.var "id"],
   [Seg.lit "strategies", Seg.var "id", Seg.lit "start"],
   [Seg.lit "strategies", Seg.var "id", Seg.lit "stop"],
   [Seg.lit "positions"],
   [Seg.lit "positions", Seg.var "market"],
   [Seg.lit "trades"],
   [Seg.lit "trades", Seg.var "id"],
   [Seg.lit "logs"],
   [Seg.lit "upbit", Seg.lit "accounts"],
   [Seg.lit "upbit", Seg.lit "balance", Seg.var "currency"],
   [Seg.lit "upbit", Seg.lit "ticker"],
   [Seg.lit "upbit", Seg.lit "orders"],
   [Seg.lit "virtual-account", Seg.lit "balance"],
   [Seg.lit "virtual-account", Seg.lit "summary"],
   [Seg.lit "virtual-account", Seg.lit "trades"],
   [Seg.lit "virtual-account", Seg.lit "strategies"],
   [Seg.lit "virtual-account", Seg.lit "reset"]]

/-- Split a character list at every `/`. -/
def splitSlash : List Char → List (List Char)
  | [] => [[]]
  | c :: cs =>
    if c = '/' then [] :: splitSlash cs
    else
      match splitSlash cs with
      | [] => [[c]]
      | seg :: segs => (c :: seg) :: segs

/-- Segment-wise match: a literal matches itself, a placeholder matches any
segment. -/
def matchSegs : Pattern → List (List Char) → Bool
  | [], [] => true
  | Seg.lit s :: ps, x :: xs => decide (x = s.toList) && matchSegs ps xs
  | Seg.var _ :: ps, _ :: xs => matchSegs ps xs
  | _, _ => false

/-- The path is an instance of the pattern: it starts with `/` and its
`/`-separated segments match the pattern's segments one by one. -/
def instantiates (path : String) (pat : Pattern) : Bool :=
  match path.toList with
  | '/' :: rest => matchSegs pat (splitSlash rest)
  | _ => false

/-- The string contains no `/`. -/
def noSlash (s : String) : Prop := '/' ∉ s.toList

instance (s : String) : Decidable (noSlash s) := by
  unfold noSlash
  infer_instance

/-- The text a segment contributes when the placeholder is filled with the
path argument `arg`. -/
def Seg.fill (arg : String) : Seg → String
  | Seg.lit s => s
  | Seg.var _ => arg

/-- The path obtained from a pattern by writing `/` before every segment and
the path argument `arg` in place of the placeholder (no pattern of the table
has more than one placeholder). -/
def render : Pattern → String → String
  | [], _ => ""
  | seg :: ps, arg => "/" ++ seg.fill arg ++ render ps arg

/-- The resource pattern from which the path of an operation is built. -/
def Op.pattern : Op → Pattern
  | Op.health_getHealth => [Seg.lit "health"]
  | Op.health_getDetailedHealth => [Seg.lit "health", Seg.lit "detailed"]
  | Op.health_getMetrics => [Seg.lit "health", Seg.lit "metrics"]
  | Op.strategy_getStrategies => [Seg.lit "strategies"]
  | Op.strategy_getStrategy => [Seg.lit "strategies", Seg.var "id"]
  | Op.strategy_startStrategy => [Seg.lit "strategies", Seg.var "id", Seg.lit "start"]
  | Op.strategy_stopStrategy => [Seg.lit "strategies", Seg.var "id", Seg.lit "stop"]
  | Op.position_getPositions => [Seg.lit "positions"]
  | Op.position_getPosition => [Seg.lit "positions", Seg.var "market"]
  | Op.trade_getTrades => [Seg.lit "trades"]
  | Op.trade_getTrade => [Seg.lit "trades", Seg.var "id"]
  | Op.log_getLogs => [Seg.lit "logs"]
  | Op.upbit_getAccounts => [Seg.lit "upbit", Seg.lit "accounts"]
  | Op.upbit_getBalance => [Seg.lit "upbit", Seg.lit "balance", Seg.var "currency"]
  | Op.upbit_getTicker => [Seg.lit "upbit", Seg.lit "ticker"]
  | Op.upbit_getOrders => [Seg.lit "upbit", Seg.lit "orders"]
  | Op.virtualAccount_getBalance => [Seg.lit "virtual-account", Seg.lit "balance"]
  | Op.virtualAccount_getSummary => [Seg.lit "virtual-account", Seg.lit "summary"]
  | Op.virtualAccount_getTrades => [Seg.lit "virtual-account", Seg.lit "trades"]
  | Op.virtualAccount_getStrategies => [Seg.lit "virtual-account", Seg.lit "strategies"]
  | Op.virtualAccount_resetAccount => [Seg.lit "virtual-account", Seg.lit "reset"]

/-! ## The virtual ledger

The back end addressed by the client is not part of `api.js`; the ledger
operation below follows the component design of the specification. -/

/-- Side of a trade. -/
inductive Side where
  | buy
  | sell
deriving DecidableEq

/-- An open position: signed quantity (positive is long) and average entry
price. -/
structure Position where
  quantity : ℚ
  avgPrice : ℚ

/-- A committed trade record. -/
structure Trade where
  id : Nat
  strategyId : String
  market : String
  side : Side
  quantity : ℚ
  price : ℚ
  cashDelta : ℚ
  quantityDelta : ℚ

/-- A virtual account: cash balance and realized profit and loss. -/
structure VirtualAccount where
  cash : ℚ
  realizedPnl : ℚ

/-- The ledger: one account per strategy id, one position per strategy id
and market, and the append-only trade history. -/
structure VirtualLedger where
  accounts : String → VirtualAccount
  positions : String → String → Position
  trades : List Trade

/-- The error kinds of `ApplyTrade`. -/
inductive LedgerError where
  | ValidationError
  | InsufficientFundsError
deriving DecidableEq

/-- The fee model, a parameter of `ApplyTrade`: the fee of a trade from its
side, quantity and price. -/
abbrev FeeModel := Side → ℚ → ℚ → ℚ

/-- Signed quantity of a trade: positive for a buy, negative for a sell. -/
def signedQty (side : Side) (quantity : ℚ) : ℚ :=
  match side with
  | Side.buy => quantity
  | Side.sell => -quantity

/-- Modelled from the spec: step (1) of `ApplyTrade`, whose code is not in
`api.js`.  The cash delta is `-(quantity×price)` for a buy and
`+(quantity×price)` for a sell, minus the fee. -/
def cashDelta (fee : FeeModel) (side : Side) (quantity price : ℚ) : ℚ :=
  match side with
  | Side.buy => -(quantity * price) - fee side quantity price
  | Side.sell => quantity * price - fee side quantity price

/-- Modelled from the spec: step (3) of `ApplyTrade`, whose code is not in
`api.js`.  For the signed quantity `d` traded at `price` the result is the
new position and the realized profit: weighted-average cost when the trade
adds to the position, realized-profit extraction when it reduces or closes
it, and for a trade that flips the position the full close of the existing
quantity followed by opening the remainder at the trade price. -/
def updatePosition (pos : Position) (d price : ℚ) : Position × ℚ :=
  if pos.quantity = 0 ∨ 0 < pos.quantity * d then
    ({ quantity := pos.quantity + d,
       avgPrice := (|pos.quantity| * pos.avgPrice + |d| * price) / (|pos.quantity| + |d|) }, 0)
  else if |d| ≤ |pos.quantity| then
    ({ quantity := pos.quantity + d,
       avgPrice := if pos.quantity + d = 0 then 0 else pos.avgPrice },
     if 0 < pos.quantity then |d| * (price - pos.avgPrice)
     else |d| * (pos.avgPrice - price))
  else
    ({ quantity := pos.quantity + d, avgPrice := price },
     if 0 < pos.quantity then |pos.quantity| * (price - pos.avgPrice)
     else |pos.quantity| * (pos.avgPrice - price))

/-- Modelled from the spec: `ApplyTrade(strategyId, market, side, quantity,
price)`, whose code is not in `api.js`.  A negative quantity is a
`ValidationError`; a resulting cash below zero is an
`InsufficientFundsError`; both commit nothing.  Otherwise cash, position,
realized profit (net of the fee) and the trade history are updated as one
unit. -/
def ApplyTrade (fee : FeeModel) (l : VirtualLedger) (strategyId market : String)
    (side : Side) (quantity price : ℚ) : Except LedgerError VirtualLedger :=
  if quantity < 0 then Except.error LedgerError.ValidationError
  else
    let acct := l.accounts strategyId
    let delta := cashDelta fee side quantity price
    if acct.cash + delta < 0 then Except.error LedgerError.InsufficientFundsError
    else
      let d := signedQty side quantity
      let upd := updatePosition (l.positions strategyId market) d price
      let trade : Trade :=
        { id := l.trades.length, strategyId := strategyId, market := market,
          side := side, quantity := quantity, price := price,
          cashDelta := delta, quantityDelta := d }
      Except.ok
        { accounts := Function.update l.accounts strategyId
            { cash := acct.cash + delta,
              realizedPnl := acct.realizedPnl + upd.2 - fee side quantity price },
          positions := Function.update l.positions strategyId
            (Function.update (l.positions strategyId) market upd.1),
          trades := l.trades ++ [trade] }

/-- The arguments of one `ApplyTrade` call on a fixed key. -/
structure Call where
  side : Side
  quantity : ℚ
  price : ℚ

/-- A sequence of `ApplyTrade` calls on one (strategy, market) key, applied in
order; a rejected call leaves the ledger as it was. -/
def applyCalls (fee : FeeModel) (strategyId market : String) :
    VirtualLedger → List Call → VirtualLedger
  | l, [] => l
  | l, c :: cs =>
    match ApplyTrade fee l strategyId market c.side c.quantity c.price with
    | Except.ok l' => applyCalls fee strategyId market l' cs
    | Except.error _ => applyCalls fee strategyId market l cs

/-- Every call of the sequence is accepted. -/
def allAccepted (fee : FeeModel) (strategyId market : String) :
    VirtualLedger → List Call → Prop
  | _, [] => True
  | l, c :: cs =>
    match ApplyTrade fee l strategyId market c.side c.quantity c.price with
    | Except.ok l' => allAccepted fee strategyId market l' cs
    | Except.error _ => False

/-- Signed sum of the quantities of the calls. -/
def sumQty (calls : List Call) : ℚ :=
  (calls.map (fun c => signedQty c.side c.quantity)).sum

/-- Signed sum of `quantity × price` over the calls. -/
def sumNotional (calls : List Call) : ℚ :=
  (calls.map (fun c => signedQty c.side c.quantity * c.price)).sum

/-- Sum of the fees of the calls. -/
def sumFees (fee : FeeModel) (calls : List Call) : ℚ :=
  (calls.map (fun c => fee c.side c.quantity c.price)).sum

/-- The trades committed after the ledger `l`, read from the history of a
later ledger. -/
def committedSince (l final : VirtualLedger) : List Trade :=
  final.trades.drop l.trades.length

/-- A ledger with the given starting cash for every strategy, no position and
no trade. -/
def initialLedger (cash : ℚ) : VirtualLedger :=
  { accounts := fun _ => { cash := cash, realizedPnl := 0 },
    positions := fun _ _ => { quantity := 0, avgPrice := 0 },
    trades := [] }

/-- The fee model without fees. -/
def noFee : FeeModel := fun _ _ _ => 0

/-! ## Query parameters of the virtual-account operations -/

theorem orDefault_undefined (d : JsVal) : JsVal.undefined.orDefault d = d := rfl

theorem orDefault_of_defined (v d : JsVal) (h : v.isUndefined = false) :
    v.orDefault d = v := by
  simp [JsVal.orDefault, h]

theorem strategyScope_of_falsy (v : JsVal) (h : v.truthy = false) :
    strategyScope v = [] := by
  simp [strategyScope, h]

theorem strategyScope_of_truthy (v : JsVal) (h : v.truthy = true) :
    strategyScope v = [("strategy_id", v)] := by
  simp [strategyScope, h, setProp]

theorem params_api_get (url : String) (p : JsVal) :
    (api_get url (paramsConfig p)).params = p := by
  simp [api_get, paramsConfig, setProp, getProp]

theorem params_api_post (url : String) (d p : JsVal) :
    (api_post url d (paramsConfig p)).params = p := by
  simp [api_post, paramsConfig, setProp, getProp]

/-- C1: with no strategy id (the argument omitted, i.e. `undefined`, or
`null`) `getBalance`, `getSummary` and `resetAccount` send the empty
parameter object and `getTrades(limit)` sends exactly `{limit}`; none of the
four parameter objects has a `strategy_id` key. -/
theorem aggregate_scope_params (strategyId limit : JsVal)
    (h : strategyId = JsVal.undefined ∨ strategyId = JsVal.null) :
    (virtualAccountApi.getBalance strategyId).params = JsVal.obj [] ∧
    (virtualAccountApi.getSummary strategyId).params = JsVal.obj [] ∧
    (virtualAccountApi.resetAccount strategyId).params = JsVal.obj [] ∧
    (virtualAccountApi.getTrades limit strategyId).params
      = JsVal.obj [("limit", limit.orDefault (JsVal.int 50))] ∧
    "strategy_id" ∉ keys (virtualAccountApi.getBalance strategyId).params ∧
    "strategy_id" ∉ keys (virtualAccountApi.getSummary strategyId).params ∧
    "strategy_id" ∉ keys (virtualAccountApi.resetAccount strategyId).params ∧
    "strategy_id" ∉ keys (virtualAccountApi.getTrades limit strategyId).params := by
  have hs : strategyScope (strategyId.orDefault JsVal.null) = [] := by
    rcases h with h | h <;> subst h <;> rfl
  simp [virtualAccountApi.getBalance, virtualAccountApi.getSummary,
    virtualAccountApi.resetAccount, virtualAccountApi.getTrades, params_api_get,
    params_api_post, hs, spread, setProp, keys]

theorem aggregate_scope_params_witness :
    (JsVal.null = JsVal.undefined ∨ JsVal.null = JsVal.null) ∧
    (virtualAccountApi.getTrades (JsVal.int 10) JsVal.null).params
      = JsVal.obj [("limit", (JsVal.int 10).orDefault (JsVal.int 50))] :=
  ⟨Or.inr rfl,
   (aggregate_scope_params JsVal.null (JsVal.int 10) (Or.inr rfl)).2.2.2.1⟩

/-- C2: for a non-empty string `s`, `getBalance(s)`, `getSummary(s)` and
`resetAccount(s)` send exactly `{strategy_id: s}`, and `getTrades(L, s)` with
a supplied limit `L` sends exactly `{limit: L, strategy_id: s}` (with the
limit omitted, `{limit: 50, strategy_id: s}`). -/
theorem strategy_scope_params (s : String) (L : JsVal) (hs : s ≠ "")
    (hL : L.isUndefined = false) :
    (virtualAccountApi.getBalance (JsVal.str s)).params
      = JsVal.obj [("strategy_id", JsVal.str s)] ∧
    (virtualAccountApi.getSummary (JsVal.str s)).params
      = JsVal.obj [("strategy_id", JsVal.str s)] ∧
    (virtualAccountApi.resetAccount (JsVal.str s)).params
      = JsVal.obj [("strategy_id", JsVal.str s)] ∧
    (virtualAccountApi.getTrades L (JsVal.str s)).params
      = JsVal.obj [("limit", L), ("strategy_id", JsVal.str s)] ∧
    (virtualAccountApi.getTrades JsVal.undefined (JsVal.str s)).params
      = JsVal.obj [("limit", JsVal.int 50), ("strategy_id", JsVal.str s)] := by
  have h1 : (JsVal.str s).orDefault JsVal.null = JsVal.str s := rfl
  have h2 : strategyScope (JsVal.str s) = [("strategy_id", JsVal.str s)] :=
    strategyScope_of_truthy _ (by simp [JsVal.truthy, hs])
  simp [virtualAccountApi.getBalance, virtualAccountApi.getSummary,
    virtualAccountApi.resetAccount, virtualAccountApi.getTrades, params_api_get,
    params_api_post, h1, h2, orDefault_of_defined L _ hL, orDefault_undefined, spread,
    setProp]

theorem strategy_scope_params_witness :
    (virtualAccountApi.getTrades (JsVal.int 5) (JsVal.str "alpha")).params
      = JsVal.obj [("limit", JsVal.int 5), ("strategy_id", JsVal.str "alpha")] :=
  (strategy_scope_params "alpha" (JsVal.int 5) (by decide) rfl).2.2.2.1

/-- C9: a present but falsy strategy id (`0`, the empty string or `false`)
builds the same request as the call without argument, with empty query
parameters and no `strategy_id` key, for `resetAccount`, `getBalance` and
`getSummary`. -/
theorem falsy_strategy_id_is_absent (strategyId : JsVal)
    (h : strategyId = JsVal.int 0 ∨ strategyId = JsVal.str "" ∨
      strategyId = JsVal.bool false) :
    virtualAccountApi.resetAccount strategyId
      = virtualAccountApi.resetAccount JsVal.undefined ∧
    virtualAccountApi.getBalance strategyId
      = virtualAccountApi.getBalance JsVal.undefined ∧
    virtualAccountApi.getSummary strategyId
      = virtualAccountApi.getSummary JsVal.undefined ∧
    (virtualAccountApi.resetAccount strategyId).params = JsVal.obj [] ∧
    (virtualAccountApi.getBalance strategyId).params = JsVal.obj [] ∧
    (virtualAccountApi.getSummary strategyId).params = JsVal.obj [] ∧
    "strategy_id" ∉ keys (virtualAccountApi.resetAccount strategyId).params := by
  have hs : strategyScope (strategyId.orDefault JsVal.null) = [] := by
    rcases h with h | h | h <;> subst h <;>
      simp [JsVal.orDefault, JsVal.isUndefined, JsVal.int, strategyScope, JsVal.truthy,
        JsNum.truthy]
  have hu : strategyScope (JsVal.undefined.orDefault JsVal.null) = [] := rfl
  simp [virtualAccountApi.getBalance, virtualAccountApi.getSummary,
    virtualAccountApi.resetAccount, params_api_get, params_api_post, hs, hu, keys]

theorem falsy_strategy_id_is_absent_witness :
    virtualAccountApi.resetAccount (JsVal.int 0)
      = virtualAccountApi.resetAccount JsVal.undefined :=
  (falsy_strategy_id_is_absent (JsVal.int 0) (Or.inl rfl)).1

/-- C6: for every argument `resetAccount` issues a POST to
`/virtual-account/reset` with body `null`, and every key of its query
parameters is `strategy_id`: the parameters are empty or hold the strategy id
alone. -/
theorem resetAccount_request (strategyId : JsVal) :
    (virtualAccountApi.resetAccount strategyId).method = Method.POST ∧
    (virtualAccountApi.resetAccount strategyId).url = "/virtual-account/reset" ∧
    (virtualAccountApi.resetAccount strategyId).data = JsVal.null ∧
    (∀ k ∈ keys (virtualAccountApi.resetAccount strategyId).params, k = "strategy_id") ∧
    ((virtualAccountApi.resetAccount strategyId).params = JsVal.obj [] ∨
      (virtualAccountApi.resetAccount strategyId).params
        = JsVal.obj [("strategy_id", strategyId)]) := by
  refine ⟨rfl, rfl, rfl, ?_, ?_⟩
  · intro k hk
    simp only [virtualAccountApi.resetAccount, params_api_post] at hk
    by_cases ht : (strategyId.orDefault JsVal.null).truthy = true
    · rw [strategyScope_of_truthy _ ht] at hk
      simpa [keys] using hk
    · rw [strategyScope_of_falsy _ (by simpa using ht)] at hk
      simp [keys] at hk
  · simp only [virtualAccountApi.resetAccount, params_api_post]
    by_cases hu : strategyId.isUndefined = true
    · left
      simp [JsVal.orDefault, hu, strategyScope, JsVal.truthy]
    · rw [orDefault_of_defined _ _ (by simpa using hu)]
      by_cases ht : strategyId.truthy = true
      · right
        rw [strategyScope_of_truthy _ ht]
      · left
        rw [strategyScope_of_falsy _ (by simpa using ht)]

/-! ## Trades and logs -/

/-- C4: `tradeApi.getTrades` with a supplied limit `L` and offset `O` is a GET
of `/trades` with query parameters exactly `{limit: L, offset: O}`; an omitted
limit is 20 and an omitted offset is 0. -/
theorem tradeApi_getTrades_params (L O : JsVal) (hL : L.isUndefined = false)
    (hO : O.isUndefined = false) :
    (tradeApi.getTrades L O).method = Method.GET ∧
    (tradeApi.getTrades L O).url = "/trades" ∧
    (tradeApi.getTrades L O).params = JsVal.obj [("limit", L), ("offset", O)] ∧
    (tradeApi.getTrades JsVal.undefined O).params
      = JsVal.obj [("limit", JsVal.int 20), ("offset", O)] ∧
    (tradeApi.getTrades L JsVal.undefined).params
      = JsVal.obj [("limit", L), ("offset", JsVal.int 0)] ∧
    (tradeApi.getTrades JsVal.undefined JsVal.undefined).params
      = JsVal.obj [("limit", JsVal.int 20), ("offset", JsVal.int 0)] := by
  refine ⟨rfl, rfl, ?_, ?_, ?_, ?_⟩ <;>
    simp [tradeApi.getTrades, params_api_get, orDefault_of_defined L _ hL,
      orDefault_of_defined O _ hO, orDefault_undefined, setProp]

theorem tradeApi_getTrades_params_witness :
    (tradeApi.getTrades (JsVal.int 10) (JsVal.int 40)).params
      = JsVal.obj [("limit", JsVal.int 10), ("offset", JsVal.int 40)] :=
  (tradeApi_getTrades_params (JsVal.int 10) (JsVal.int 40) rfl rfl).2.2.1

/-- C7: `logApi.getLogs(p)` with a parameter object `p` is a GET of `/logs`
whose query parameters are exactly `p`; without argument the parameters are
the empty object. -/
theorem getLogs_passes_params (p : JsVal) (hp : p.isObject = true) :
    (logApi.getLogs p).method = Method.GET ∧
    (logApi.getLogs p).url = "/logs" ∧
    (logApi.getLogs p).params = p ∧
    (logApi.getLogs JsVal.undefined).params = JsVal.obj [] := by
  refine ⟨rfl, rfl, ?_, rfl⟩
  cases p <;> simp_all [JsVal.isObject, logApi.getLogs, params_api_get, JsVal.orDefault,
    JsVal.isUndefined]

theorem getLogs_passes_params_witness :
    (logApi.getLogs (JsVal.obj [("level", JsVal.str "ERROR")])).params
      = JsVal.obj [("level", JsVal.str "ERROR")] :=
  (getLogs_passes_params (JsVal.obj [("level", JsVal.str "ERROR")]) rfl).2.2.1

/-! ## Pagination parameters -/

/-- C5, counterexample: `tradeApi.getTrades(-1, "x")` places the limit `-1`
and the offset `"x"` in the query parameters, and
`virtualAccountApi.getTrades(-1)` places the limit `-1`; none of them is a
non-negative integer. -/
theorem pagination_not_validated :
    getProp (tradeApi.getTrades (JsVal.int (-1)) (JsVal.str "x")).params "limit"
      = JsVal.int (-1) ∧
    getProp (tradeApi.getTrades (JsVal.int (-1)) (JsVal.str "x")).params "offset"
      = JsVal.str "x" ∧
    getProp (virtualAccountApi.getTrades (JsVal.int (-1)) JsVal.undefined).params "limit"
      = JsVal.int (-1) ∧
    (JsVal.int (-1)).isNonNegInt = false ∧
    (JsVal.str "x").isNonNegInt = false := by
  refine ⟨?_, ?_, ?_, ?_, rfl⟩
  · simp [tradeApi.getTrades, params_api_get, JsVal.orDefault, JsVal.isUndefined, JsVal.int,
      setProp, getProp]
  · simp [tradeApi.getTrades, params_api_get, JsVal.orDefault, JsVal.isUndefined, JsVal.int,
      setProp, getProp]
  · simp [virtualAccountApi.getTrades, params_api_get, JsVal.orDefault, JsVal.isUndefined,
      JsVal.int, strategyScope, JsVal.truthy, spread, setProp, getProp]
  · simp [JsVal.int, JsVal.isNonNegInt, JsNum.isNonNegInt]

/-- C5, amended: for every call the `limit` and `offset` values placed in the
query parameters are the supplied arguments unchanged, or the defaults 20, 0
and 50 for omitted ones; so each of them is a non-negative integer whenever
the corresponding argument is omitted or is a non-negative integer. -/
theorem pagination_params_nonneg (limit offset strategyId : JsVal) :
    getProp (tradeApi.getTrades limit offset).params "limit"
      = limit.orDefault (JsVal.int 20) ∧
    getProp (tradeApi.getTrades limit offset).params "offset"
      = offset.orDefault (JsVal.int 0) ∧
    getProp (virtualAccountApi.getTrades limit strategyId).params "limit"
      = limit.orDefault (JsVal.int 50) ∧
    (limit.isUndefined = false →
      getProp (tradeApi.getTrades limit offset).params "limit" = limit ∧
      getProp (virtualAccountApi.getTrades limit strategyId).params "limit" = limit) ∧
    (offset.isUndefined = false →
      getProp (tradeApi.getTrades limit offset).params "offset" = offset) ∧
    (limit.isUndefined = true ∨ limit.isNonNegInt = true →
      (getProp (tradeApi.getTrades limit offset).params "limit").isNonNegInt = true ∧
      (getProp (virtualAccountApi.getTrades limit strategyId).params "limit").isNonNegInt
        = true) ∧
    (offset.isUndefined = true ∨ offset.isNonNegInt = true →
      (getProp (tradeApi.getTrades limit offset).params "offset").isNonNegInt = true) := by
  have e1 : getProp (tradeApi.getTrades limit offset).params "limit"
      = limit.orDefault (JsVal.int 20) := by
    simp [tradeApi.getTrades, params_api_get, setProp, getProp]
  have e2 : getProp (tradeApi.getTrades limit offset).params "offset"
      = offset.orDefault (JsVal.int 0) := by
    simp [tradeApi.getTrades, params_api_get, setProp, getProp]
  have e3 : getProp (virtualAccountApi.getTrades limit strategyId).params "limit"
      = limit.orDefault (JsVal.int 50) := by
    simp only [virtualAccountApi.getTrades, params_api_get]
    by_cases ht : (strategyId.orDefault JsVal.null).truthy = true
    · rw [strategyScope_of_truthy _ ht]
      simp [spread, setProp, getProp]
    · rw [strategyScope_of_falsy _ (by simpa using ht)]
      simp [spread, setProp, getProp]
  have d (v : JsVal) (n : Int) (hn : 0 ≤ n)
      (hv : v.isUndefined = true ∨ v.isNonNegInt = true) :
      (v.orDefault (JsVal.int n)).isNonNegInt = true := by
    rcases hv with hv | hv
    · simp [JsVal.orDefault, hv, JsVal.int, JsVal.isNonNegInt, JsNum.isNonNegInt, hn]
    · by_cases hu : v.isUndefined = true
      · simp [JsVal.orDefault, hu, JsVal.int, JsVal.isNonNegInt, JsNum.isNonNegInt, hn]
      · simp [JsVal.orDefault, hu, hv]
  refine ⟨e1, e2, e3, ?_, ?_, ?_, ?_⟩
  · intro hl
    rw [e1, e3, orDefault_of_defined _ _ hl, orDefault_of_defined _ _ hl]
    exact ⟨rfl, rfl⟩
  · intro ho
    rw [e2, orDefault_of_defined _ _ ho]
  · intro hl
    exact ⟨e1 ▸ d limit 20 (by decide) hl, e3 ▸ d limit 50 (by decide) hl⟩
  · intro ho
    exact e2 ▸ d offset 0 (by decide) ho

theorem pagination_params_nonneg_witness :
    getProp (tradeApi.getTrades (JsVal.int (-1)) (JsVal.str "x")).params "limit"
      = JsVal.int (-1) ∧
    getProp (tradeApi.getTrades (JsVal.int (-1)) (JsVal.str "x")).params "offset"
      = JsVal.str "x" ∧
    (getProp (tradeApi.getTrades (JsVal.int 10) JsVal.undefined).params "limit").isNonNegInt
      = true ∧
    (getProp (tradeApi.getTrades (JsVal.int 10) JsVal.undefined).params "offset").isNonNegInt
      = true :=
  ⟨((pagination_params_nonneg (JsVal.int (-1)) (JsVal.str "x") JsVal.null).2.2.2.1 rfl).1,
   (pagination_params_nonneg (JsVal.int (-1)) (JsVal.str "x") JsVal.null).2.2.2.2.1 rfl,
   ((pagination_params_nonneg (JsVal.int 10) JsVal.undefined JsVal.null).2.2.2.2.2.1
      (Or.inr (by simp [JsVal.int, JsVal.isNonNegInt, JsNum.isNonNegInt]))).1,
   (pagination_params_nonneg (JsVal.int 10) JsVal.undefined JsVal.null).2.2.2.2.2.2
      (Or.inl rfl)⟩

/-! ## Strategy paths -/

theorem startStrategy_chars (a : String) :
    (strategyApi.startStrategy a).url.toList
      = "/strategies/".toList ++ (a.toList ++ "/start".toList) := by
  simp [strategyApi.startStrategy, api_post, String.toList]

theorem stopStrategy_chars (a : String) :
    (strategyApi.stopStrategy a).url.toList
      = "/strategies/".toList ++ (a.toList ++ "/stop".toList) := by
  simp [strategyApi.stopStrategy, api_post, String.toList]

/-- C10: for all string ids `a` and `b` the path of `startStrategy(a)` differs
from the path of `stopStrategy(b)`, and `startStrategy(a)` and
`startStrategy(b)` build the same path only if `a = b`. -/
theorem start_stop_paths_distinct (a b : String) :
    (strategyApi.startStrategy a).url ≠ (strategyApi.stopStrategy b).url ∧
    ((strategyApi.startStrategy a).url = (strategyApi.startStrategy b).url → a = b) := by
  constructor
  · intro h
    have h1 := congrArg String.toList h
    rw [startStrategy_chars, stopStrategy_chars] at h1
    have h2 := congrArg List.getLast? (List.append_cancel_left h1)
    simp [String.toList] at h2
  · intro h
    have h1 := congrArg String.toList h
    rw [startStrategy_chars, startStrategy_chars] at h1
    have h2 := List.append_cancel_right (List.append_cancel_left h1)
    exact String.ext h2

/-! ## The call surface and the resource table -/

theorem splitSlash_of_noSlash (a : List Char) (h : '/' ∉ a) : splitSlash a = [a] := by
  induction a with
  | nil => rfl
  | cons c cs ih =>
    have hc : c ≠ '/' := fun e => h (by simp [e])
    have hcs : '/' ∉ cs := fun e => h (by simp [e])
    simp [splitSlash, hc, ih hcs]

theorem splitSlash_append (a r : List Char) (h : '/' ∉ a) :
    splitSlash (a ++ '/' :: r) = a :: splitSlash r := by
  induction a with
  | nil => simp [splitSlash]
  | cons c cs ih =>
    have hc : c ≠ '/' := fun e => h (by simp [e])
    have hcs : '/' ∉ cs := fun e => h (by simp [e])
    simp [splitSlash, hc, ih hcs]

theorem instantiates_eq (path : String) (rest : List Char) (segs : List (List Char))
    (pat : Pattern) (e : path.toList = '/' :: rest) (q : splitSlash rest = segs) :
    instantiates path pat = matchSegs pat segs := by
  unfold instantiates
  rw [e, ← q]
  simp

/-- Segments of a path `/x/s`. -/
theorem segments_two (pre x s : String) (hx : noSlash x) (hs : noSlash s)
    (hpre : pre.toList = '/' :: (x.toList ++ ['/'])) (pat : Pattern) :
    instantiates (pre ++ s) pat = matchSegs pat [x.toList, s.toList] := by
  apply instantiates_eq _ (x.toList ++ '/' :: s.toList)
  · have : (pre ++ s).toList = pre.toList ++ s.toList := by simp [String.toList]
    rw [this, hpre]; simp
  · rw [splitSlash_append _ _ hx, splitSlash_of_noSlash _ hs]

/-- Segments of a path `/x/s/y`. -/
theorem segments_mid (pre x s post y : String) (hx : noSlash x) (hs : noSlash s)
    (hy : noSlash y) (hpre : pre.toList = '/' :: (x.toList ++ ['/']))
    (hpost : post.toList = '/' :: y.toList) (pat : Pattern) :
    instantiates (pre ++ s ++ post) pat = matchSegs pat [x.toList, s.toList, y.toList] := by
  apply instantiates_eq _ (x.toList ++ '/' :: (s.toList ++ '/' :: y.toList))
  · have : (pre ++ s ++ post).toList = pre.toList ++ (s.toList ++ post.toList) := by
      simp [String.toList]
    rw [this, hpre, hpost]; simp
  · rw [splitSlash_append _ _ hx, splitSlash_append _ _ hs, splitSlash_of_noSlash _ hy]

/-- Segments of a path `/x/y/s`. -/
theorem segments_three (pre x y s : String) (hx : noSlash x) (hy : noSlash y)
    (hs : noSlash s) (hpre : pre.toList = '/' :: (x.toList ++ '/' :: (y.toList ++ ['/'])))
    (pat : Pattern) :
    instantiates (pre ++ s) pat = matchSegs pat [x.toList, y.toList, s.toList] := by
  apply instantiates_eq _ (x.toList ++ '/' :: (y.toList ++ '/' :: s.toList))
  · have : (pre ++ s).toList = pre.toList ++ s.toList := by simp [String.toList]
    rw [this, hpre]; simp
  · rw [splitSlash_append _ _ hx, splitSlash_append _ _ hy, splitSlash_of_noSlash _ hs]

/-- Among the patterns of the table, the path of an operation is an instance
of the operation's own pattern and of no other. -/
theorem table_filter (o : Op) (s : String) (a b : JsVal) (hs : noSlash s) :
    resourceTable.filter (fun p => instantiates (o.call s a b).url p) = [o.pattern] := by
  cases o
  case strategy_getStrategy =>
    simp only [Op.call, strategyApi.getStrategy, api_get,
      segments_two "/strategies/" "strategies" s (by decide) hs (by decide)]
    simp [resourceTable, matchSegs, Op.pattern, String.toList]
  case strategy_startStrategy =>
    simp only [Op.call, strategyApi.startStrategy, api_post,
      segments_mid "/strategies/" "strategies" s "/start" "start" (by decide) hs (by decide)
        (by decide) (by decide)]
    simp [resourceTable, matchSegs, Op.pattern, String.toList]
  case strategy_stopStrategy =>
    simp only [Op.call, strategyApi.stopStrategy, api_post,
      segments_mid "/strategies/" "strategies" s "/stop" "stop" (by decide) hs (by decide)
        (by decide) (by decide)]
    simp [resourceTable, matchSegs, Op.pattern, String.toList]
  case position_getPosition =>
    simp only [Op.call, positionApi.getPosition, api_get,
      segments_two "/positions/" "positions" s (by decide) hs (by decide)]
    simp [resourceTable, matchSegs, Op.pattern, String.toList]
  case trade_getTrade =>
    simp only [Op.call, tradeApi.getTrade, api_get,
      segments_two "/trades/" "trades" s (by decide) hs (by decide)]
    simp [resourceTable, matchSegs, Op.pattern, String.toList]
  case upbit_getBalance =>
    simp only [Op.call, upbitApi.getBalance, api_get,
      segments_three "/upbit/balance/" "upbit" "balance" s (by decide) (by decide) hs
        (by decide)]
    simp [resourceTable, matchSegs, Op.pattern, String.toList]
  all_goals rfl

theorem instantiates_iff (o : Op) (s : String) (a b : JsVal) (hs : noSlash s)
    (p : Pattern) :
    (p ∈ resourceTable ∧ instantiates (o.call s a b).url p = true) ↔ p = o.pattern := by
  rw [← List.mem_filter, table_filter o s a b hs, List.mem_singleton]

theorem resourceTable_eq_map : resourceTable = Op.all.map Op.pattern := rfl

theorem pattern_injective (o o' : Op) (h : o.pattern = o'.pattern) : o = o' := by
  cases o <;> cases o' <;> first | rfl | (simp [Op.pattern] at h)

/-- The path of an operation is its pattern with the path argument written
in place of the placeholder. -/
theorem url_eq_render (o : Op) (s : String) (a b : JsVal) :
    (o.call s a b).url = render o.pattern s := by
  cases o <;> apply String.ext <;>
    simp [Op.call, Op.pattern, render, Seg.fill, api_get, api_post,
      healthApi.getHealth, healthApi.getDetailedHealth, healthApi.getMetrics,
      strategyApi.getStrategies, strategyApi.getStrategy, strategyApi.startStrategy,
      strategyApi.stopStrategy, positionApi.getPositions, positionApi.getPosition,
      tradeApi.getTrades, tradeApi.getTrade, logApi.getLogs, upbitApi.getAccounts,
      upbitApi.getBalance, upbitApi.getTicker, upbitApi.getOrders,
      virtualAccountApi.getBalance, virtualAccountApi.getSummary,
      virtualAccountApi.getTrades, virtualAccountApi.getStrategies,
      virtualAccountApi.resetAccount]

theorem pattern_mem_table (o : Op) : o.pattern ∈ resourceTable := by
  rw [resourceTable_eq_map]
  exact List.mem_map_of_mem _ (by cases o <;> decide)

/-- A table pattern filled with an argument without `/` is the path of the
operation `o` only if it is the pattern of `o`. -/
theorem render_unique (o : Op) (s : String) (a b : JsVal) (hs : noSlash s)
    (p : Pattern) (hp : p ∈ resourceTable) (h : (o.call s a b).url = render p s) :
    p = o.pattern := by
  rw [resourceTable_eq_map, List.mem_map] at hp
  obtain ⟨o', -, rfl⟩ := hp
  have h1 := ((instantiates_iff o' s a b hs _).2 rfl).2
  rw [url_eq_render o' s a b, ← h] at h1
  exact (instantiates_iff o s a b hs _).1 ⟨pattern_mem_table o', h1⟩

/-- C3: the module has exactly 21 operations and the table 21 resource
patterns; the base URL is `API_BASE_URL` followed by `/api/v1`; for a path
argument `s` without `/` the path of every operation is exactly one pattern
of the table with `s` written in place of the placeholder, no other pattern
of the table matches the path even segment by segment, and every pattern of
the table is instantiated in this way by exactly one operation; the method
is POST for `startStrategy`, `stopStrategy` and `resetAccount` and GET for
the other operations. -/
theorem call_surface_matches_table :
    Op.all.length = 21 ∧ Op.all.Nodup ∧ (∀ o : Op, o ∈ Op.all) ∧
    resourceTable.length = 21 ∧ resourceTable.Nodup ∧
    (∀ env : Option String, baseURL env = API_BASE_URL env ++ "/api/v1") ∧
    (∀ (o : Op) (s : String) (a b : JsVal), noSlash s →
      ∃! p, p ∈ resourceTable ∧ (o.call s a b).url = render p s) ∧
    (∀ (o : Op) (s : String) (a b : JsVal), noSlash s →
      ∀ p ∈ resourceTable, instantiates (o.call s a b).url p = true →
        (o.call s a b).url = render p s) ∧
    (∀ p ∈ resourceTable, ∃! o : Op, ∀ (s : String) (a b : JsVal), noSlash s →
      (o.call s a b).url = render p s) ∧
    (∀ (o : Op) (s : String) (a b : JsVal), (o.call s a b).method =
      if o = Op.strategy_startStrategy ∨ o = Op.strategy_stopStrategy ∨
        o = Op.virtualAccount_resetAccount then Method.POST else Method.GET) := by
  refine ⟨rfl, by decide, ?_, rfl, by decide, ?_, ?_, ?_, ?_, ?_⟩
  · intro o
    cases o <;> decide
  · intro env
    simp [baseURL, API_VERSION, String.append_assoc]
  · intro o s a b hs
    refine ⟨o.pattern, ⟨pattern_mem_table o, url_eq_render o s a b⟩, ?_⟩
    intro p hp
    exact render_unique o s a b hs p hp.1 hp.2
  · intro o s a b hs p hp hi
    rw [(instantiates_iff o s a b hs p).1 ⟨hp, hi⟩]
    exact url_eq_render o s a b
  · intro p hp
    have hp' := hp
    rw [resourceTable_eq_map, List.mem_map] at hp'
    obtain ⟨o, -, rfl⟩ := hp'
    refine ⟨o, fun s a b _ => url_eq_render o s a b, ?_⟩
    intro o' h
    have h1 := h "" JsVal.undefined JsVal.undefined (by decide)
    exact pattern_injective _ _
      (render_unique o' "" JsVal.undefined JsVal.undefined (by decide) _ hp h1).symm
  · intro o s a b
    cases o <;> rfl

theorem call_surface_matches_table_witness :
    noSlash "momentum-1" ∧
    ∃! p, p ∈ resourceTable ∧
      (Op.strategy_startStrategy.call "momentum-1" JsVal.undefined JsVal.undefined).url
        = render p "momentum-1" :=
  ⟨by decide,
   call_surface_matches_table.2.2.2.2.2.2.1 Op.strategy_startStrategy "momentum-1"
     JsVal.undefined JsVal.undefined (by decide)⟩

/-! ## Ledger conservation -/

theorem updatePosition_quantity (pos : Position) (d price : ℚ) :
    (updatePosition pos d price).1.quantity = pos.quantity + d := by
  unfold updatePosition
  split_ifs <;> rfl

theorem cashDelta_eq (fee : FeeModel) (side : Side) (quantity price : ℚ) :
    cashDelta fee side quantity price
      = -(signedQty side quantity * price) - fee side quantity price := by
  cases side <;> simp [cashDelta, signedQty]

/-- An accepted trade adds its cash delta to the cash of the strategy's
account and its signed quantity to the position of the key. -/
theorem ApplyTrade_ok (fee : FeeModel) (l l' : VirtualLedger) (strategyId market : String)
    (side : Side) (quantity price : ℚ)
    (h : ApplyTrade fee l strategyId market side quantity price = Except.ok l') :
    (l'.accounts strategyId).cash
      = (l.accounts strategyId).cash + cashDelta fee side quantity price ∧
    (l'.positions strategyId market).quantity
      = (l.positions strategyId market).quantity + signedQty side quantity ∧
    l'.trades.length = l.trades.length + 1 := by
  by_cases h1 : quantity < 0
  · simp [ApplyTrade, h1] at h
  · by_cases h2 : (l.accounts strategyId).cash + cashDelta fee side quantity price < 0
    · simp [ApplyTrade, h1, h2] at h
    · simp only [ApplyTrade, h1, h2, if_false, Except.ok.injEq] at h
      subst h
      simp [updatePosition_quantity]

/-- An accepted trade appends one record carrying the arguments of the call. -/
theorem ApplyTrade_trades (fee : FeeModel) (l l' : VirtualLedger)
    (strategyId market : String) (side : Side) (quantity price : ℚ)
    (h : ApplyTrade fee l strategyId market side quantity price = Except.ok l') :
    ∃ t : Trade, l'.trades = l.trades ++ [t] ∧
      t.strategyId = strategyId ∧ t.market = market ∧
      t.side = side ∧ t.quantity = quantity ∧ t.price = price := by
  by_cases h1 : quantity < 0
  · simp [ApplyTrade, h1] at h
  · by_cases h2 : (l.accounts strategyId).cash + cashDelta fee side quantity price < 0
    · simp [ApplyTrade, h1, h2] at h
    · simp only [ApplyTrade, h1, h2, if_false, Except.ok.injEq] at h
      subst h
      exact ⟨_, rfl, rfl, rfl, rfl, rfl, rfl⟩

theorem applyCalls_accepted (fee : FeeModel) (strategyId market : String)
    (calls : List Call) (l : VirtualLedger)
    (h : allAccepted fee strategyId market l calls) :
    ((applyCalls fee strategyId market l calls).positions strategyId market).quantity
      = (l.positions strategyId market).quantity + sumQty calls ∧
    ((applyCalls fee strategyId market l calls).accounts strategyId).cash
      = (l.accounts strategyId).cash - sumNotional calls - sumFees fee calls := by
  induction calls generalizing l with
  | nil => simp [applyCalls, sumQty, sumNotional, sumFees]
  | cons c cs ih =>
    unfold allAccepted at h
    unfold applyCalls
    cases hr : ApplyTrade fee l strategyId market c.side c.quantity c.price with
    | error e => simp [hr] at h
    | ok l' =>
      simp only [hr] at h ⊢
      obtain ⟨hc, hq, -⟩ := ApplyTrade_ok fee l l' strategyId market _ _ _ hr
      obtain ⟨iq, ic⟩ := ih l' h
      rw [iq, ic, hc, hq, cashDelta_eq]
      simp only [sumQty, sumNotional, sumFees, List.map_cons, List.sum_cons]
      constructor <;> ring

/-- C8, counterexample: with starting cash 100 and no fee the single call
buy 2 at 100 is rejected, so the final position quantity 0 is not the signed
sum 2 of the quantities; and the calls buy 2 at 100, sell 1 at 100 end with
quantity -1 and cash 200 in this order but with quantity 1 and cash 0 in the
opposite order. -/
theorem ledger_sum_fails_on_rejected_call :
    ((applyCalls noFee "A" "X" (initialLedger 100)
        [⟨Side.buy, 2, 100⟩]).positions "A" "X").quantity = 0 ∧
    ((initialLedger 100).positions "A" "X").quantity + sumQty [⟨Side.buy, 2, 100⟩] = 2 ∧
    ((applyCalls noFee "A" "X" (initialLedger 100)
        [⟨Side.buy, 2, 100⟩, ⟨Side.sell, 1, 100⟩]).positions "A" "X").quantity = -1 ∧
    ((applyCalls noFee "A" "X" (initialLedger 100)
        [⟨Side.sell, 1, 100⟩, ⟨Side.buy, 2, 100⟩]).positions "A" "X").quantity = 1 ∧
    ((applyCalls noFee "A" "X" (initialLedger 100)
        [⟨Side.buy, 2, 100⟩, ⟨Side.sell, 1, 100⟩]).accounts "A").cash = 200 ∧
    ((applyCalls noFee "A" "X" (initialLedger 100)
        [⟨Side.sell, 1, 100⟩, ⟨Side.buy, 2, 100⟩]).accounts "A").cash = 0 := by
  refine ⟨?_, ?_, ?_, ?_, ?_, ?_⟩ <;>
    norm_num [applyCalls, ApplyTrade, cashDelta, noFee, initialLedger, signedQty,
      updatePosition, sumQty]

/-- When every call is accepted the history grows by one trade per call. -/
theorem applyCalls_accepted_length (fee : FeeModel) (strategyId market : String)
    (calls : List Call) (l : VirtualLedger)
    (h : allAccepted fee strategyId market l calls) :
    (applyCalls fee strategyId market l calls).trades.length
      = l.trades.length + calls.length := by
  induction calls generalizing l with
  | nil => simp [applyCalls]
  | cons c cs ih =>
    unfold allAccepted at h
    unfold applyCalls
    cases hr : ApplyTrade fee l strategyId market c.side c.quantity c.price with
    | error e => simp [hr] at h
    | ok l' =>
      simp only [hr] at h ⊢
      obtain ⟨-, -, hl⟩ := ApplyTrade_ok fee l l' strategyId market _ _ _ hr
      rw [ih l' h, hl, List.length_cons]
      ring

/-- The effect of a sequence of calls on one key is the sum over the trades it
commits, read from their side, quantity and price. -/
theorem applyCalls_committed (fee : FeeModel) (strategyId market : String)
    (calls : List Call) (l : VirtualLedger) :
    ∃ new : List Trade,
      (applyCalls fee strategyId market l calls).trades = l.trades ++ new ∧
      (∀ t ∈ new, t.strategyId = strategyId ∧ t.market = market) ∧
      ((applyCalls fee strategyId market l calls).positions strategyId market).quantity
        = (l.positions strategyId market).quantity
          + (new.map (fun t => signedQty t.side t.quantity)).sum ∧
      ((applyCalls fee strategyId market l calls).accounts strategyId).cash
        = (l.accounts strategyId).cash
          - (new.map (fun t => signedQty t.side t.quantity * t.price)).sum
          - (new.map (fun t => fee t.side t.quantity t.price)).sum := by
  induction calls generalizing l with
  | nil => exact ⟨[], by simp [applyCalls]⟩
  | cons c cs ih =>
    unfold applyCalls
    cases hr : ApplyTrade fee l strategyId market c.side c.quantity c.price with
    | error e => exact ih l
    | ok l' =>
      obtain ⟨new, ht, hk, hq, hc⟩ := ih l'
      obtain ⟨t, e1, k1, k2, e2, e3, e4⟩ :=
        ApplyTrade_trades fee l l' strategyId market _ _ _ hr
      obtain ⟨hc', hq', -⟩ := ApplyTrade_ok fee l l' strategyId market _ _ _ hr
      refine ⟨t :: new, ?_, ?_, ?_, ?_⟩
      · simp only [ht, e1, List.append_assoc, List.singleton_append]
      · intro u hu
        rcases List.mem_cons.1 hu with hu | hu
        · subst hu
          exact ⟨k1, k2⟩
        · exact hk u hu
      · simp only [hq, hq', e2, e3, List.map_cons, List.sum_cons]
        ring
      · simp only [hc, hc', cashDelta_eq, e2, e3, e4, List.map_cons, List.sum_cons]
        ring

/-- C8, amended: for every sequence of `ApplyTrade` calls on one key the
committed trades all carry that key, the final position quantity is the
initial quantity plus the signed sum of the quantities of the committed
trades, and the final cash is the initial cash minus the signed sum of their
quantity × price minus their fees.  When every call is accepted these sums run
over all calls, and every reordering of the calls that is accepted throughout
ends with the same quantity and cash. -/
theorem ledger_conservation (fee : FeeModel) (strategyId market : String)
    (l : VirtualLedger) (calls : List Call) :
    ((∀ t ∈ committedSince l (applyCalls fee strategyId market l calls),
        t.strategyId = strategyId ∧ t.market = market) ∧
      ((applyCalls fee strategyId market l calls).positions strategyId market).quantity
        = (l.positions strategyId market).quantity
          + ((committedSince l (applyCalls fee strategyId market l calls)).map
              (fun t => signedQty t.side t.quantity)).sum ∧
      ((applyCalls fee strategyId market l calls).accounts strategyId).cash
        = (l.accounts strategyId).cash
          - ((committedSince l (applyCalls fee strategyId market l calls)).map
              (fun t => signedQty t.side t.quantity * t.price)).sum
          - ((committedSince l (applyCalls fee strategyId market l calls)).map
              (fun t => fee t.side t.quantity t.price)).sum) ∧
    (allAccepted fee strategyId market l calls →
      (committedSince l (applyCalls fee strategyId market l calls)).length = calls.length ∧
      ((applyCalls fee strategyId market l calls).positions strategyId market).quantity
        = (l.positions strategyId market).quantity + sumQty calls ∧
      ((applyCalls fee strategyId market l calls).accounts strategyId).cash
        = (l.accounts strategyId).cash - sumNotional calls - sumFees fee calls ∧
      ∀ calls' : List Call, calls'.Perm calls →
        allAccepted fee strategyId market l calls' →
        ((applyCalls fee strategyId market l calls').positions strategyId market).quantity
          = ((applyCalls fee strategyId market l calls).positions strategyId market).quantity ∧
        ((applyCalls fee strategyId market l calls').accounts strategyId).cash
          = ((applyCalls fee strategyId market l calls).accounts strategyId).cash) := by
  constructor
  · obtain ⟨new, ht, hk, hq, hc⟩ := applyCalls_committed fee strategyId market calls l
    have e : committedSince l (applyCalls fee strategyId market l calls) = new := by
      simp [committedSince, ht]
    rw [e]
    exact ⟨hk, hq, hc⟩
  · intro h
    obtain ⟨hq, hc⟩ := applyCalls_accepted fee strategyId market calls l h
    refine ⟨?_, hq, hc, ?_⟩
    · have hlen := applyCalls_accepted_length fee strategyId market calls l h
      simp [committedSince, hlen]
    · intro calls' hp h'
      obtain ⟨hq', hc'⟩ := applyCalls_accepted fee strategyId market calls' l h'
      rw [hq, hc, hq', hc']
      simp only [sumQty, sumNotional, sumFees]
      rw [(hp.map _).sum_eq, (hp.map _).sum_eq, (hp.map _).sum_eq]
      exact ⟨rfl, rfl⟩

theorem ledger_conservation_witness :
    allAccepted noFee "A" "X" (initialLedger 1000000)
      [⟨Side.buy, 1, 100⟩, ⟨Side.sell, 1, 120⟩] ∧
    ((applyCalls noFee "A" "X" (initialLedger 1000000)
        [⟨Side.buy, 1, 100⟩, ⟨Side.sell, 1, 120⟩]).accounts "A").cash
      = ((initialLedger 1000000).accounts "A").cash
        - sumNotional [⟨Side.buy, 1, 100⟩, ⟨Side.sell, 1, 120⟩]
        - sumFees noFee [⟨Side.buy, 1, 100⟩, ⟨Side.sell, 1, 120⟩] :=
  ⟨by norm_num [allAccepted, ApplyTrade, cashDelta, noFee, initialLedger],
   ((ledger_conservation noFee "A" "X" (initialLedger 1000000)
      [⟨Side.buy, 1, 100⟩, ⟨Side.sell, 1, 120⟩]).2
      (by norm_num [allAccepted, ApplyTrade, cashDelta, noFee, initialLedger])).2.2.1⟩

/-- The worked example of the specification: from cash 1,000,000 a buy of 1 at
100 leaves cash 999,900 and the position quantity 1 at average price 100; the
following sell of 1 at 120 leaves cash 1,000,020, no position and a realized
profit of 20 (no fee). -/
theorem ledger_worked_example :
    ((applyCalls noFee "A" "X" (initialLedger 1000000)
        [⟨Side.buy, 1, 100⟩]).accounts "A").cash = 999900 ∧
    ((applyCalls noFee "A" "X" (initialLedger 1000000)
        [⟨Side.buy, 1, 100⟩]).positions "A" "X").quantity = 1 ∧
    ((applyCalls noFee "A" "X" (initialLedger 1000000)
        [⟨Side.buy, 1, 100⟩]).positions "A" "X").avgPrice = 100 ∧
    ((applyCalls noFee "A" "X" (initialLedger 1000000)
        [⟨Side.buy, 1, 100⟩, ⟨Side.sell, 1, 120⟩]).accounts "A").cash = 1000020 ∧
    ((applyCalls noFee "A" "X" (initialLedger 1000000)
        [⟨Side.buy, 1, 100⟩, ⟨Side.sell, 1, 120⟩]).positions "A" "X").quantity = 0 ∧
    ((applyCalls noFee "A" "X" (initialLedger 1000000)
        [⟨Side.buy, 1, 100⟩, ⟨Side.sell, 1, 120⟩]).accounts "A").realizedPnl = 20 := by
  refine ⟨?_, ?_, ?_, ?_, ?_, ?_⟩ <;>
    norm_num [applyCalls, ApplyTrade, cashDelta, noFee, initialLedger, signedQty,
      updatePosition]

end Quant
